import Mathlib

set_option maxRecDepth 100000

/-!
Verification development for the DESY web-content processing pipeline
(src/processing.py).  The definitions below are a shallow embedding of the
data model and the operations of DESYContentProcessor: the text-level
pattern library and the tail of clean_content, the character chunker
(create_chunks / split_text_by_size), the whole-body structural fallback,
the main-content selector loop, URL skipping and planning
(process_urls_from_mapping), and the fetch / process_url state machine.
External collaborators that cannot be embedded (BeautifulSoup parsing,
language detection, content extraction, the HTTP and browser backends,
MD5) are modelled as explicit oracle parameters; everything else is
translated line by line from the source.
-/

namespace DESY

/- ## Character and string utilities (Python str semantics) -/

/-- Python \w (word character) restricted to the alphanumeric/underscore core;
the concrete inputs used below are ASCII, where this coincides with Python. -/
def isWordChar (c : Char) : Bool := c.isAlphanum || c == '_'

/-- Whitespace as matched by Python str.strip() and \s on the characters that
occur in this development (ASCII whitespace plus NBSP and NNBSP). -/
def isSpaceChar (c : Char) : Bool :=
  c == ' ' || c == '\t' || c == '\n' || c == '\r' || c == '\x0b' || c == '\x0c'
    || c == '\xa0' || c == ' '

/-- Python str.strip(): drop leading and trailing whitespace. -/
def pyStripL (s : List Char) : List Char :=
  ((s.dropWhile isSpaceChar).reverse.dropWhile isSpaceChar).reverse

/-- Does the second list start with the first one? -/
def startsWithL : List Char → List Char → Bool
  | [], _ => true
  | _ :: _, [] => false
  | c :: ns, d :: ds => c == d && startsWithL ns ds

/-- Substring containment (Python needle-in-haystack test). -/
def containsSubL (needle : List Char) : List Char → Bool
  | [] => needle.isEmpty
  | s@(_ :: rest) => startsWithL needle s || containsSubL needle rest

/-- Index of the first occurrence of a substring, if any. -/
def findSub (needle : List Char) : List Char → Option Nat
  | [] => if needle.isEmpty then some 0 else none
  | s@(_ :: rest) =>
    if startsWithL needle s then some 0 else (findSub needle rest).map (· + 1)

/-- Python slice t[a:b] (clamping, b exclusive). -/
def sliceL (s : List Char) (a b : Nat) : List Char := (s.drop a).take (b - a)

/-- Case-insensitive substring test: is the (lowercase) needle contained in
the lowercased string?  Models the Python test needle in s.lower(). -/
def lowerContains (s : String) (needle : String) : Bool :=
  containsSubL needle.toList (s.toList.map Char.toLower)

/-- Number of whitespace-separated words, as len(s.split()) in Python. -/
def pyWordCount (s : List Char) : Nat :=
  (s.foldl
    (fun (p : Nat × Bool) c =>
      if isSpaceChar c then (p.1, false)
      else if p.2 then (p.1, true) else (p.1 + 1, true))
    (0, false)).1

/- ## A small backtracking regular-expression engine

Mirrors the fragment of the Python re module used by the text-level patterns of the
processor: character classes, case-insensitive literals, alternation
(preferring the left branch), greedy and lazy counted repetition, word
boundaries and end-of-input.  Matching is fuelled; the fuel bounds only the
recursion depth and is chosen large enough for all inputs considered. -/

inductive RE where
  | eps : RE
  | cls (p : Char → Bool) : RE
  | seqr (a b : RE) : RE
  | altr (a b : RE) : RE
  | rep (lo : Nat) (hi : Option Nat) (lazyRep : Bool) (r : RE) : RE
  | wb : RE
  | eos : RE

/-- Is position i a \b word boundary of s? -/
def atWordBoundary (s : List Char) (i : Nat) : Bool :=
  let before :=
    match i with
    | 0 => false
    | j + 1 =>
      match s.get? j with
      | some c => isWordChar c
      | none => false
  let after :=
    match s.get? i with
    | some c => isWordChar c
    | none => false
  before != after

/-- Backtracking matcher in continuation style: try to match r at position i
of s, calling k with the end position; returns the first success in Python
preference order (left alternative first, greedy repetition longest first,
lazy repetition shortest first). -/
def reMatchK : Nat → RE → List Char → Nat → (Nat → Option Nat) → Option Nat
  | 0, _, _, _, _ => none
  | fuel + 1, r, s, i, k =>
    match r with
    | .eps => k i
    | .cls p =>
      match s.get? i with
      | some c => if p c then k (i + 1) else none
      | none => none
    | .seqr a b => reMatchK fuel a s i (fun j => reMatchK fuel b s j k)
    | .altr a b =>
      match reMatchK fuel a s i k with
      | some e => some e
      | none => reMatchK fuel b s i k
    | .wb => if atWordBoundary s i then k i else none
    | .eos => if i == s.length then k i else none
    | .rep lo hi lz body =>
      if 0 < lo then
        reMatchK fuel body s i
          (fun j => reMatchK fuel (.rep (lo - 1) (hi.map (· - 1)) lz body) s j k)
      else
        match hi with
        | some 0 => k i
        | _ =>
          let step := fun (_ : Unit) =>
            reMatchK fuel body s i (fun j =>
              if i < j then reMatchK fuel (.rep 0 (hi.map (· - 1)) lz body) s j k
              else none)
          if lz then
            match k i with
            | some e => some e
            | none => step ()
          else
            match step () with
            | some e => some e
            | none => k i

/-- Fuel sufficient for the patterns and inputs of this development. -/
def reFuel (s : List Char) : Nat := (s.length + 400) * 400

/-- First (preference-order) match end of r at position i of s, if any. -/
def reMatchAt (r : RE) (s : List Char) (i : Nat) : Option Nat :=
  reMatchK (reFuel s) r s i some

/-- Global substitution with a constant replacement, scanning left to right
over non-overlapping matches (re.sub with a constant replacement). -/
def reSubGo (r : RE) (repl : List Char) (s : List Char) : Nat → Nat → List Char
  | 0, _ => []
  | fuel + 1, i =>
    if i < s.length then
      match reMatchAt r s i with
      | some e =>
        if i < e then repl ++ reSubGo r repl s fuel e
        else (s.get? i).toList ++ reSubGo r repl s fuel (i + 1)
      | none => (s.get? i).toList ++ reSubGo r repl s fuel (i + 1)
    else []

def reSubL (r : RE) (repl : List Char) (s : List Char) : List Char :=
  reSubGo r repl s (s.length + 1) 0

/-- All non-overlapping matches (start, end), as re.finditer. -/
def reFindAllGo (r : RE) (s : List Char) : Nat → Nat → List (Nat × Nat)
  | 0, _ => []
  | fuel + 1, i =>
    if i < s.length then
      match reMatchAt r s i with
      | some e =>
        if i < e then (i, e) :: reFindAllGo r s fuel e
        else reFindAllGo r s fuel (i + 1)
      | none => reFindAllGo r s fuel (i + 1)
    else []

def reFindAllL (r : RE) (s : List Char) : List (Nat × Nat) :=
  reFindAllGo r s (s.length + 1) 0

/- ## Regex constructors mirroring the source pattern strings -/

/-- Case-insensitive literal character (all pattern groups below are
compiled with re.IGNORECASE in the source). -/
def litCI (c : Char) : RE := .cls (fun x => x.toLower == c.toLower)

/-- Case-insensitive literal string. -/
def strCI (t : String) : RE :=
  t.toList.foldr (fun c acc => .seqr (litCI c) acc) .eps

def seqList : List RE → RE
  | [] => .eps
  | [r] => r
  | r :: rs => .seqr r (seqList rs)

def altList : List RE → RE
  | [] => .eps
  | [r] => r
  | r :: rs => .altr r (altList rs)

def wsRE : RE := .cls isSpaceChar
def wsPlus : RE := .rep 1 none false wsRE
def wsStar : RE := .rep 0 none false wsRE
def digitRE : RE := .cls Char.isDigit
/-- Python '.': any character except a newline (no DOTALL in these groups). -/
def dotCI : RE := .cls (fun c => c != '\n')
/-- Greedy optional group (?:r)? -/
def optR (r : RE) : RE := .rep 0 (some 1) false r
/-- Lazy star .*? style repetition. -/
def lazyStar (r : RE) : RE := .rep 0 none true r
/-- A word-bounded case-insensitive literal (pattern form \b w \b). -/
def wordCI (t : String) : RE := seqList [.wb, strCI t, .wb]

def squote : Char := Char.ofNat 39

/- ## Pattern library: the text-level groups of DESYContentProcessor

Only the groups that can act on markup-free text are needed here (see
cleanContentNoMarkup below): SPECIALIZED (self.specialized_patterns), the
one CLEANUP pattern without a literal '<' (the title-attribute pattern),
TEXT_CLEANUP (self.text_cleanup_patterns), the whitespace pattern, and the
DOI deduplication pattern.  Each entry is a direct transcription of the
corresponding re.compile string of the source. -/

def specializedPatterns : List RE := [
  seqList [strCI "Deutsches", wsPlus, strCI "Elektronen-Synchrotron", wsPlus, strCI "DESY",
    wsPlus, strCI "A", wsPlus, strCI "Research", wsPlus, strCI "Centre", wsPlus, strCI "of",
    wsPlus, strCI "the", wsPlus, strCI "Helmholtz", wsPlus, strCI "Association"],
  seqList [strCI "Data", wsPlus, strCI "Privacy", wsPlus, strCI "Policy", wsStar, strCI "|",
    wsStar, strCI "Declaration", wsPlus, strCI "of", wsPlus, strCI "Accessibility", wsStar,
    strCI "|", wsStar, strCI "Imprint", wsStar, strCI "©",
    .rep 0 none false (.cls (fun c => c != '.'))],
  seqList [strCI "A", wsPlus, strCI "Research", wsPlus, strCI "Centre", wsPlus, strCI "of",
    wsPlus, strCI "the", wsPlus, strCI "Helmholtz", wsPlus, strCI "Association"],
  seqList [strCI "©", wsStar, .rep 4 (some 4) false digitRE, wsStar, strCI "Deutsches",
    wsPlus, strCI "Elektronen-Synchrotron", wsPlus, strCI "DESY", lazyStar dotCI,
    optR (seqList [strCI "Helmholtz", wsPlus, strCI "Association"])],
  seqList [strCI "Deutsches", wsStar, strCI "Elektronen-Synchrotron"],
  seqList [strCI "Data", wsPlus, strCI "Privacy", wsPlus, strCI "Policy", wsStar, strCI "|",
    lazyStar dotCI, .altr (strCI "Imprint") (strCI "©")],
  seqList [strCI "Impressum", wsStar, strCI "/", wsStar, strCI "Datenschutz", wsStar,
    strCI "/", wsStar, strCI "Erklärung", wsPlus, strCI "zur", wsPlus, strCI "Barrierefreiheit"],
  wordCI "Sprungnavigation",
  wordCI "Zielgruppennavigation",
  wordCI "Servicefunktionen",
  wordCI "Breadcrumb",
  wordCI "Footer",
  seqList [.wb, strCI "Desy", wsPlus, strCI "Global", .wb],
  seqList [.wb, strCI "Zum", wsPlus, strCI "Untermenü", .wb],
  seqList [.wb, strCI "Zum", wsPlus, strCI "Inhalt", .wb],
  seqList [.wb, strCI "Zum", wsPlus, strCI "Hauptmenu", .wb],
  seqList [.wb, strCI "Infos", wsStar, strCI "&", wsStar, strCI "Services", .wb],
  seqList [.wb, strCI "Leichte", wsPlus, strCI "Sprache", .wb],
  seqList [.wb, strCI "Gebärdensprache", .wb]]

def isQuoteChar (c : Char) : Bool := c == squote || c == '"'

/-- The one CLEANUP pattern with no literal '<':
title\s*=\s*[quote][^quote]*(?:Aktuelle|Seminare|Events)[^quote]*[quote]. -/
def cleanupTitleRE : RE :=
  seqList [strCI "title", wsStar, .cls (fun c => c == '='), wsStar, .cls isQuoteChar,
    .rep 0 none false (.cls (fun c => !isQuoteChar c)),
    altList [strCI "Aktuelle", strCI "Seminare", strCI "Events"],
    .rep 0 none false (.cls (fun c => !isQuoteChar c)), .cls isQuoteChar]

def textCleanupPatterns : List RE := [
  wordCI "Navigation",
  wordCI "Datenschutzerklärung",
  seqList [.wb, strCI "Erklärung", wsPlus, strCI "zur", wsPlus, strCI "Barrierefreiheit", .wb],
  seqList [.wb, strCI "Back", wsPlus, strCI "to", wsPlus, strCI "Top", .wb],
  seqList [.wb, altList [strCI "nav", strCI "menu", strCI "breadcrumb", strCI "navigation"],
    wsStar, .cls (fun c => c == ':' || c == '-' || c == '|'), wsStar],
  seqList [.wb, altList [strCI "Home", strCI "Startseite", strCI "Kontakt", strCI "Suche",
    strCI "Login", strCI "Anmelden"], .wb],
  seqList [.wb, altList [strCI "Archiv", strCI "Archive"], wsStar, .rep 4 (some 4) false digitRE],
  seqList [.wb, altList [
    seqList [strCI "Page", wsPlus, .rep 1 none false digitRE],
    seqList [strCI "Seite", wsPlus, .rep 1 none false digitRE],
    seqList [.rep 1 none false digitRE, wsPlus, strCI "of", wsPlus, .rep 1 none false digitRE]], .wb],
  seqList [.wb, altList [strCI "cookie", strCI "gdpr", strCI "popup", strCI "consent"], .wb]]

/-- self.whitespace_pattern: [\xa0 \n\r\t\s]+ -/
def whitespaceClassRE : RE :=
  .rep 1 none false (.cls (fun c =>
    c == '\xa0' || c == ' ' || c == '\n' || c == '\r' || c == '\t' || isSpaceChar c))

def doiBodyChar : RE :=
  .cls (fun c => c == '-' || c == '.' || c == '_' || c == ';' || c == '(' || c == ')'
    || c == '/' || c == ':' || c.isDigit || c.isAlpha)

/-- DOI pattern \b10\.\d{4,9}/[-._;()/:A-Z0-9]+\b (IGNORECASE). -/
def doiRE : RE :=
  seqList [.wb, strCI "10", .cls (fun c => c == '.'), .rep 4 (some 9) false digitRE,
    .cls (fun c => c == '/'), .rep 1 none false doiBodyChar, .wb]

/-- The stateful DOI substitution of clean_content: keep the first occurrence
of each DOI, replace later duplicates with the empty string. -/
def doiDedupGo (s : List Char) : Nat → Nat → List (List Char) → List Char
  | 0, _, _ => []
  | fuel + 1, i, seen =>
    if i < s.length then
      match reMatchAt doiRE s i with
      | some e =>
        if i < e then
          let tok := sliceL s i e
          if seen.contains tok then doiDedupGo s fuel e seen
          else tok ++ doiDedupGo s fuel e (seen ++ [tok])
        else (s.get? i).toList ++ doiDedupGo s fuel (i + 1) seen
      | none => (s.get? i).toList ++ doiDedupGo s fuel (i + 1) seen
    else []

def doiDedupL (s : List Char) : List Char := doiDedupGo s (s.length + 1) 0 []

/-- _apply_pattern_group: substitute every pattern of the group, in order,
by the empty string. -/
def applyPatternGroup (ps : List RE) (s : List Char) : List Char :=
  ps.foldl (fun acc p => reSubL p [] acc) s

/-- clean_content (src/processing.py lines 293-420) restricted to inputs
that contain none of the characters '<', '>", '&'.  On such inputs the
BeautifulSoup stage is the identity: the document parses to a single text
node, no main-content selector and no noise selector matches, there are no
li or anchor elements to decompose, and re-serialisation returns the text
unchanged (no entity escaping is needed).  Every pattern of the CRITICAL,
HIGH, MEDIUM and LOW groups and all CLEANUP patterns except the
title-attribute one contain a literal '<' and therefore cannot match, and
the re-parse branch is skipped because the text contains no '<'.  What
remains, in source order, is: SPECIALIZED, the CLEANUP title pattern,
TEXT_CLEANUP, the whitespace collapse, DOI de-duplication, and the final
whitespace collapse plus strip.  Substitution never introduces '<', '>'
or '&', so the restriction is stable across the stages. -/
def cleanContentNoMarkup (t : String) : String :=
  if t.isEmpty then "" else
  let cs := t.toList
  let cs := applyPatternGroup specializedPatterns cs
  let cs := applyPatternGroup [cleanupTitleRE] cs
  let cs := applyPatternGroup textCleanupPatterns cs
  let cs := reSubL whitespaceClassRE [' '] cs
  let cs := doiDedupL cs
  let cs := pyStripL (reSubL wsPlus [' '] cs)
  String.mk cs

/- ## Data model: Document records and coordinator state -/

/-- MIN_CHUNK_CHARS. -/
def minChunkChars : Nat := 30
/-- self.max_hashes. -/
def maxHashes : Nat := 100000
/-- self.max_urls. -/
def maxUrls : Nat := 10000

/-- Document metadata.  The dictionaries of the source are open; the fields
that a chunk may carry are fixed, so an Option field models presence of the
corresponding dictionary key. -/
structure ChunkMeta where
  source : String := ""
  title : String := ""
  depth : Nat := 0
  language : String := ""
  chunkType : Option String := none
  chunkIndex : Option Nat := none
  totalChunks : Option Nat := none
  sectionTitle : Option String := none
  sectionLevel : Option Nat := none
  continued : Option Bool := none
deriving DecidableEq, Repr

/-- A langchain Document: page_content plus metadata. -/
structure PDoc where
  pageContent : String
  metadata : ChunkMeta
deriving DecidableEq, Repr

/-- One entry of self.page_character_counts. -/
structure PageRecord where
  url : String
  title : String
  characterCount : Nat
  wordCount : Nat
  language : String
  depth : Nat
deriving DecidableEq, Repr

/-- Association list standing for a Python dict (insertion order kept,
assignment overwrites in place). -/
abbrev AList (β : Type) : Type := List (String × β)

def alookup {β : Type} : AList β → String → Option β
  | [], _ => none
  | (k', v') :: rest, k => if k' == k then some v' else alookup rest k

def ainsert {β : Type} : AList β → String → β → AList β
  | [], k, v => [(k, v)]
  | (k', v') :: rest, k, v =>
    if k' == k then (k', v) :: rest else (k', v') :: ainsert rest k v

/-- set.add: append if absent. -/
def insertNew (l : List String) (x : String) : List String :=
  if l.contains x then l else l ++ [x]

/-- The mutable coordinator state of DESYContentProcessor.  Hash sets and the
URL set are kept as insertion-ordered lists without duplicates; fetchCount
counts the HTTP GET / browser navigation attempts that were issued. -/
structure PState where
  processedHashes : List String := []
  fullTextHashes : List String := []
  processedUrls : List String := []
  errorUrls : AList String := []
  redirectedUrls : AList String := []
  urlDocs : AList (List PDoc) := []
  pageCharCounts : AList PageRecord := []
  fetchCount : Nat := 0
deriving DecidableEq, Repr

/-- add_to_processed_hashes: halve (drop the older half) when full, then add. -/
def addToProcessedHashes (st : PState) (h : String) : PState :=
  let hs := if maxHashes ≤ st.processedHashes.length
            then st.processedHashes.drop (maxHashes / 2) else st.processedHashes
  { st with processedHashes := insertNew hs h }

/-- add_to_processed_urls. -/
def addToProcessedUrls (st : PState) (u : String) : PState :=
  let us := if maxUrls ≤ st.processedUrls.length
            then st.processedUrls.drop (maxUrls / 2) else st.processedUrls
  { st with processedUrls := insertNew us u }

/-- self.error_urls[url] = msg. -/
def recordError (st : PState) (u msg : String) : PState :=
  { st with errorUrls := ainsert st.errorUrls u msg }

/-- self.redirected_urls[url] = target. -/
def recordRedirect (st : PState) (u v : String) : PState :=
  { st with redirectedUrls := ainsert st.redirectedUrls u v }

/-- track_page_character_count: record only when the content reaches
MIN_CHUNK_CHARS. -/
def trackPageCharacterCount (st : PState) (url content title language : String)
    (depth : Nat) : PState :=
  if content.length < minChunkChars then st
  else
    let rec0 : PageRecord :=
      { url := url, title := title, characterCount := content.length,
        wordCount := pyWordCount content.toList, language := language, depth := depth }
    { st with pageCharCounts := ainsert st.pageCharCounts url rec0 }

/-- Constructor parameters of the processor.  md5 and the HTML cleaner are
oracles: md5 stands for hashlib.md5(...).hexdigest() (instantiated with an
injective stand-in in concrete runs, which agrees with MD5 in the absence of
collisions), cleanFn for clean_content on the texts the run feeds it. -/
structure Config where
  md5 : String → String
  cleanFn : String → String
  chunkSize : Nat := 1000
  chunkOverlap : Nat := 200

/- ## The character chunker: split_text_by_size and create_chunks -/

/-- The sentence boundary pattern of split_text_by_size. -/
def sentenceRE : RE :=
  altList [
    seqList [.cls (fun c => c == '.' || c == '!' || c == '?'), wsPlus],
    seqList [.cls (fun c => c == '.' || c == '!' || c == '?'), .eos],
    seqList [.cls (fun c => c == '\n'), wsStar, .cls (fun c => c == '\n')]]

/-- str.lstrip for the characters of a sentence terminator. -/
def lstripDots (s : List Char) : List Char :=
  s.dropWhile (fun c => c == '.' || c == '!' || c == '?')

/-- Python t.rfind(space, a, b): last space index in [a, b), if any. -/
def rfindSpaceGo (s : List Char) (a : Nat) : Nat → Option Nat
  | 0 => none
  | n + 1 =>
    match s.get? (a + n) with
    | some c => if c == ' ' then some (a + n) else rfindSpaceGo s a n
    | none => rfindSpaceGo s a n

def rfindSpace (s : List Char) (a b : Nat) : Option Nat := rfindSpaceGo s a (b - a)

/-- Python t.find(space, a): first space index at or after a, if any. -/
def findSpaceFrom (s : List Char) (a : Nat) : Option Nat :=
  match (s.drop a).findIdx? (fun c => c == ' ') with
  | some j => some (a + j)
  | none => none

/-- The sentence-aware boundary choice of split_text_by_size: when the
window does not reach the end of the text, search the rightmost zone for the
last sentence terminator; otherwise fall back to the last space after the
minimum-size point.  int(max_size * 0.3) is rendered as (3 * max_size) / 10,
exact for the default chunk size 1000. -/
def chooseEnd (t : List Char) (maxSize minChunkSize start end0 : Nat) : Nat :=
  if end0 < t.length then
    let searchStart := max (end0 - (3 * maxSize) / 10) (start + minChunkSize)
    let zone := sliceL t searchStart end0
    let ms := reFindAllL sentenceRE zone
    match ms.getLast? with
    | some m =>
      let matchEnd := searchStart + m.2
      matchEnd - (lstripDots (sliceL zone m.1 m.2)).length
    | none =>
      match rfindSpace t searchStart end0 with
      | some w => if start < w then w else end0
      | none => end0
  else end0

/-- The advance of the window start: overlap back from the end, nudged to
the next word boundary, but at least min_chunk_size forward. -/
def chooseNextStart (t : List Char) (overlap minChunkSize start endPos : Nat) : Nat :=
  let idealNext := endPos - overlap
  if idealNext ≤ start then start + minChunkSize
  else
    match findSpaceFrom t idealNext with
    | some w => if w < endPos then w + 1 else idealNext
    | none => idealNext

/-- The while loop of split_text_by_size.  The fuel equals the text length
plus one; each iteration advances start by at least min_chunk_size, so the
fuel is never exhausted for the parameters used by the processor. -/
def splitLoop (t : List Char) (maxSize overlap minChars minChunkSize : Nat) :
    Nat → Nat → List (List Char) → List (List Char)
  | 0, _, acc => acc
  | fuel + 1, start, acc =>
    if start < t.length then
      let end0 := min (start + maxSize) t.length
      let endPos := chooseEnd t maxSize minChunkSize start end0
      let chunk := pyStripL (sliceL t start endPos)
      let acc2 := if minChars ≤ chunk.length then acc ++ [chunk] else acc
      if t.length ≤ endPos then acc2
      else
        splitLoop t maxSize overlap minChars minChunkSize fuel
          (chooseNextStart t overlap minChunkSize start endPos) acc2
    else acc

/-- split_text_by_size (nested in create_chunks, lines 631-665). -/
def splitTextBySize (t : List Char) (maxSize overlap minChars : Nat) : List (List Char) :=
  if t.length ≤ maxSize then [t]
  else splitLoop t maxSize overlap minChars (max (maxSize / 2) (maxSize - overlap))
         (t.length + 1) 0 []

/-- re.sub(whitespace, space, chunk.strip().lower()) used for the chunk
fingerprint. -/
def normalizeForFp (chunk : List Char) : List Char :=
  reSubL wsPlus [' '] ((pyStripL chunk).map Char.toLower)

/-- Python enumerate. -/
def enumIdx {α : Type} (l : List α) : List (Nat × α) := (List.range l.length).zip l

/-- The emission loop of create_chunks (lines 670-693): per-call fingerprint
dedup (md5 of normalised text plus section title), then global dedup against
processed_hashes, then emission with chunk metadata. -/
def createChunksGo (cfg : Config) (m : ChunkMeta) (ct sectionTitle : String)
    (sectionLevel total : Nat) :
    List (Nat × List Char) → List String → PState → List PDoc → List PDoc × PState
  | [], _, st, acc => (acc, st)
  | (i, chunk) :: rest, fps, st, acc =>
    let fp := cfg.md5 (String.mk (normalizeForFp chunk) ++ sectionTitle)
    if fps.contains fp then
      createChunksGo cfg m ct sectionTitle sectionLevel total rest fps st acc
    else
      let fps := fps ++ [fp]
      let contentHash := cfg.md5 (String.mk chunk)
      if st.processedHashes.contains contentHash then
        createChunksGo cfg m ct sectionTitle sectionLevel total rest fps st acc
      else
        let st := addToProcessedHashes st contentHash
        let doc : PDoc :=
          { pageContent := String.mk chunk,
            metadata := { m with
              chunkIndex := some i, totalChunks := some total, chunkType := some ct,
              sectionTitle := some sectionTitle, sectionLevel := some sectionLevel,
              continued := if 0 < i then some true else m.continued } }
        createChunksGo cfg m ct sectionTitle sectionLevel total rest fps st (acc ++ [doc])

/-- create_chunks (lines 625-693): clean the input (result only gatekeeps),
split the original text, deduplicate and emit. -/
def createChunks (cfg : Config) (st : PState) (text : String) (m : ChunkMeta)
    (chunkType : String) : List PDoc × PState :=
  if text.isEmpty then ([], st) else
  let cleaned := cfg.cleanFn text
  if cleaned.isEmpty then ([], st) else
  let texts := splitTextBySize text.toList cfg.chunkSize cfg.chunkOverlap minChunkChars
  createChunksGo cfg m chunkType (m.sectionTitle.getD "") (m.sectionLevel.getD 0)
    texts.length (enumIdx texts) [] st []

/-- The whole-body fallback of create_structure_based_chunks (lines 842-855,
the third pass, reached when the first two passes emitted nothing): feed the
body text to create_chunks as a structural chunk, without any minimum-length
filter on the result. -/
def structuralFallbackChunks (cfg : Config) (st : PState) (bodyText pageTitle url : String)
    (depth : Nat) (language : String) : List PDoc × PState :=
  if bodyText.isEmpty then ([], st)
  else
    createChunks cfg st bodyText
      { source := url, title := pageTitle, depth := depth, language := language,
        sectionTitle := some pageTitle, sectionLevel := some 0 } "structural"

/- ## Main-content selection in clean_content (lines 299-316) -/

/-- The observable behaviour of a parsed document for selector queries:
select_one per CSS selector, and the body element. -/
structure SoupSelect where
  selectOne : String → Option Nat
  body : Option Nat

inductive MainPick where
  | node (n : Nat) : MainPick
  | root : MainPick
deriving DecidableEq, Repr

/-- main_content_selectors, in source order. -/
def mainContentSelectors : List String := [
  "main", "article", "section[class*=content]",
  "div[class*=main-content]", "div[class*=content-section]", "div[class*=text-block]",
  "div[id=content]", "div[id=main]", "div[id=bodyContent]",
  "div[class*=content]", "div[class*=text]", "div[class*=body]",
  "div[class*=page]", "div[class*=container]", "center"]

/-- The selector loop as written (lines 312-316): the loop body overwrites
main_content with select_one of each selector in turn, so only the final
selector survives; then fall through to body, then to the document root. -/
def chooseMainContent (d : SoupSelect) : MainPick :=
  let mc := mainContentSelectors.foldl (fun _ sel => d.selectOne sel) none
  match mc with
  | some n => .node n
  | none =>
    match d.body with
    | some b => .node b
    | none => .root

/-- The selection rule in the words of the specification (and of the
commented-out original loop): use the first selector that matches, fall
through to body, then to the document root. -/
def chooseMainContentFirstMatch (d : SoupSelect) : MainPick :=
  match mainContentSelectors.findSome? d.selectOne with
  | some n => .node n
  | none =>
    match d.body with
    | some b => .node b
    | none => .root

/- ## URL skipping and URL-map planning -/

/-- NON_HTML_EXTENSIONS. -/
def nonHtmlExtensions : List String :=
  [".jpg", ".jpeg", ".png", ".gif", ".bmp", ".svg", ".pdf", ".mp4", ".mp3",
   ".avi", ".mov", ".wmv", ".zip", ".tar", ".gz", ".doc", ".docx", ".xls",
   ".xlsx", ".ppt", ".pptx", ".xml"]

/-- Query and fragment are not part of urlparse(...).path. -/
def dropQueryFrag (s : List Char) : List Char :=
  s.takeWhile (fun c => c != '?' && c != '#')

/-- urlparse(url).path for the common scheme://host/path?query#fragment
shape (and a bare path when no scheme separator is present). -/
def urlPath (url : String) : String :=
  let cs := url.toList
  match findSub "://".toList cs with
  | some i =>
    let afterScheme := cs.drop (i + 3)
    String.mk (dropQueryFrag (afterScheme.dropWhile (fun c => c != '/')))
  | none => String.mk (dropQueryFrag cs)

/-- Python str.endswith. -/
def endsWithL (s tail : List Char) : Bool := startsWithL tail.reverse s.reverse

/-- should_skip_url: does the lowercased path end with a non-HTML extension? -/
def shouldSkipUrl (url : String) : Bool :=
  let path := (urlPath url).toList.map Char.toLower
  nonHtmlExtensions.any (fun ext => endsWithL path ext.toList)

/-- The accepted shapes of the input URL map (section of
process_urls_from_mapping, lines 1239-1254): a dict with urls_by_depth
(depth keys as numeric strings), a flat dict keyed by URL, or a list. -/
inductive UrlMap where
  | byDepth (depths : List (Nat × List String)) : UrlMap
  | flatDict (keys : List String) : UrlMap
  | flatList (urls : List String) : UrlMap

/-- list(url_map.keys()) respectively list(url_map), as used by the fallback
branch; for the urls_by_depth shape the top-level keys are just the literal
key urls_by_depth. -/
def topLevelUrls : UrlMap → List String
  | .byDepth _ => ["urls_by_depth"]
  | .flatDict keys => keys
  | .flatList urls => urls

/-- url_map["urls_by_depth"].get(str(depth)). -/
def depthLookup : UrlMap → Nat → Option (List String)
  | .byDepth ds, d =>
    match ds.find? (fun p => p.1 == d) with
    | some p => some p.2
    | none => none
  | .flatDict _, _ => none
  | .flatList _, _ => none

/-- Classify one list of URLs at a given depth: skipped-by-extension URLs go
to the skipped list, the rest are appended to the work list. -/
def classifyLoop (d : Nat) :
    List String → List (String × Nat) → List String → List (String × Nat) × List String
  | [], acc, skipped => (acc, skipped)
  | u :: rest, acc, skipped =>
    if shouldSkipUrl u then classifyLoop d rest acc (skipped ++ [u])
    else classifyLoop d rest (acc ++ [(u, d)]) skipped

/-- The depth loop of process_urls_from_mapping (lines 1239-1254): for each
depth with an entry, classify its URLs; the first depth without an entry
falls back to the top-level keys at depth 0 and stops. -/
def planLoop (m : UrlMap) :
    List Nat → List (String × Nat) → List String → List (String × Nat) × List String
  | [], acc, skipped => (acc, skipped)
  | d :: rest, acc, skipped =>
    match depthLookup m d with
    | some urls =>
      let r := classifyLoop d urls acc skipped
      planLoop m rest r.1 r.2
    | none => classifyLoop 0 (topLevelUrls m) acc skipped

/-- Deduplicate keeping the first (shallowest) occurrence of each URL. -/
def uniqueFirst : List (String × Nat) → List (String × Nat) → List (String × Nat)
  | [], acc => acc
  | (u, d) :: rest, acc =>
    if (acc.find? (fun p => p.1 == u)).isSome then uniqueFirst rest acc
    else uniqueFirst rest (acc ++ [(u, d)])

/-- URL collection of process_urls_from_mapping (lines 1239-1261): classify
by depth, deduplicate, apply the (truthy) limit. -/
def planUrls (m : UrlMap) (maxDepth : Nat) (limit : Option Nat) :
    List (String × Nat) × List String :=
  let r := planLoop m (List.range (maxDepth + 1)) [] []
  let uniq := uniqueFirst r.1 []
  (match limit with
   | some l => if l == 0 then uniq else uniq.take l
   | none => uniq, r.2)

/- ## The fetch model -/

/-- Outcome of one GET attempt inside fetch_simple: either the request
raises, or it completes with a status, the final (post-redirect) URL and the
body text. -/
inductive FetchAttempt where
  | exn (msg : String) : FetchAttempt
  | resp (status : Nat) (finalUrl : String) (body : String) : FetchAttempt

/-- Outcome of one browser attempt inside fetch_with_js: either it raises,
or navigation completes at finalUrl with page content html whose parsed
visible-text length and p/div/section tag count are given by the oracle. -/
inductive JsAttempt where
  | exn (msg : String) : JsAttempt
  | nav (finalUrl : String) (html : String) (textLen tagCount : Nat) : JsAttempt

/-- What the coordinator observes of BeautifulSoup(content) together with
extract_content and detect_language for that page: login/not-found
classification, visible text length, p/div/section/article tag count,
CMS-resource script count, noscript presence, the page title, the extracted
cleaned body (extract_content(soup)[0]) and the detected language. -/
structure PageView where
  title : String
  isLogin : Bool
  isNotFound : Bool
  textLen : Nat
  structCount : Nat
  extJsCount : Nat
  hasNoscript : Bool
  extracted : String
  language : String
deriving DecidableEq, Repr

/-- The environment of one run: the per-URL per-attempt HTTP and browser
oracles, the parse oracle, and create_structure_based_chunks as a
state-passing oracle taking the current state, the URL, the depth and the
language. -/
structure Env where
  att : String → Nat → FetchAttempt
  js : String → Nat → JsAttempt
  parse : String → PageView
  structChunks : PState → String → Nat → String → List PDoc × PState

/-- The soft-block screen of fetch_simple on a 200 body (line 930). -/
def softBlockBody (body : String) : Bool :=
  decide ((pyStripL body.toList).length < 500) || lowerContains body "access denied"
    || lowerContains body "javascript required"

/-- fetch_with_js (lines 960-1060), one attempt per recursion step.  Per
attempt: record the redirect when the final URL differs and short-circuit
when the target was already processed; reject oversized content; reject
login/auth URLs with an error entry; accept when the rendered page has at
least 100 characters of text and at least 5 structural tags; otherwise move
to the next attempt.  An exception on the last attempt records the error;
falling out of the loop returns None without an error entry. -/
def fetchWithJsLoop (env : Env) (url : String) :
    Nat → Nat → PState → Option String × PState
  | 0, _, st => (none, st)
  | left + 1, attempt, st =>
    let st := { st with fetchCount := st.fetchCount + 1 }
    match env.js url attempt with
    | .exn e =>
      if attempt == 2 then (none, recordError st url ("JS rendering failed: " ++ e))
      else fetchWithJsLoop env url left (attempt + 1) st
    | .nav finalUrl html textLen tagCount =>
      let st := if finalUrl != url then recordRedirect st url finalUrl else st
      if finalUrl != url && st.processedUrls.contains finalUrl then
        (none, addToProcessedUrls st url)
      else if 5000000 < html.length then (none, st)
      else if lowerContains finalUrl "login" || lowerContains finalUrl "auth" then
        (none, recordError st url ("Redirected to login page: " ++ finalUrl))
      else if 100 ≤ textLen && 5 ≤ tagCount then (some html, st)
      else fetchWithJsLoop env url left (attempt + 1) st

def fetchWithJs (env : Env) (st : PState) (url : String) : Option String × PState :=
  fetchWithJsLoop env url 3 0 st

/-- fetch_simple (lines 902-949), one attempt per recursion step.  A
completed response is final on that attempt: 200 with a soft-block body
records the error and delegates to fetch_with_js; 200 with a redirect
records the mapping and short-circuits when the target was processed;
non-200 records the status error and returns None.  Only an exception moves
to the next attempt, and an exception on the last attempt records it. -/
def fetchSimpleLoop (env : Env) (url : String) :
    Nat → Nat → PState → Option String × PState
  | 0, _, st => (none, st)
  | left + 1, attempt, st =>
    let st := { st with fetchCount := st.fetchCount + 1 }
    match env.att url attempt with
    | .exn e =>
      if attempt == 2 then (none, recordError st url e)
      else fetchSimpleLoop env url left (attempt + 1) st
    | .resp status finalUrl body =>
      if status == 200 then
        if softBlockBody body then
          fetchWithJs env (recordError st url "Soft block or empty content") url
        else if finalUrl != url then
          let st := recordRedirect st url finalUrl
          if !st.processedUrls.contains finalUrl then (some body, st)
          else (none, addToProcessedUrls st url)
        else (some body, st)
      else (none, recordError st url ("HTTP status: " ++ toString status))

def fetchSimple (env : Env) (st : PState) (url : String) : Option String × PState :=
  fetchSimpleLoop env url 3 0 st

/-- The escalation screen of fetch_url_async (lines 1102-1111): weak text,
low structure, a javascript-required marker in the raw content, or
suspicious CMS scripts / noscript. -/
def jsEscalate (pv : PageView) (content : String) : Bool :=
  decide (pv.textLen < 200) || decide (pv.structCount < 5)
    || lowerContains content "javascript required"
    || decide (1 < pv.extJsCount) || pv.hasNoscript

/-- fetch_url_async (lines 1088-1134): skip by extension with an error
entry, plain fetch, semantic checks, JS escalation, and the pure-JS
fallback when the plain fetch produced nothing. -/
def fetchUrlAsync (env : Env) (st : PState) (url : String) : Option PageView × PState :=
  if shouldSkipUrl url then
    (none, recordError st url "Non-HTML content (skipped by extension)")
  else
    let r := fetchSimple env st url
    match r with
    | (some content, st1) =>
      let pv := env.parse content
      if pv.isLogin then (none, recordError st1 url "Login page detected")
      else if pv.isNotFound then (none, recordError st1 url "404 or content error detected")
      else if jsEscalate pv content then
        let r2 := fetchWithJs env st1 url
        match r2 with
        | (some jsContent, st2) =>
          let pv2 := env.parse jsContent
          if pv2.isLogin then (none, recordError st2 url "Login page detected (post-JS)")
          else if pv2.isNotFound then (none, recordError st2 url "404 (post-JS)")
          else (some pv2, st2)
        | (none, st2) => (none, st2)
      else (some pv, st1)
    | (none, st1) =>
      let r2 := fetchWithJs env st1 url
      match r2 with
      | (some jsContent, st2) =>
        let pv2 := env.parse jsContent
        if pv2.isLogin then (none, recordError st2 url "Login page detected (pure JS)")
        else if pv2.isNotFound then (none, recordError st2 url "404 (pure JS)")
        else (some pv2, st2)
      | (none, st2) => (none, st2)

/- ## process_url and the batch loop -/

/-- The cache-hit guard of process_url (line 1137). -/
def cacheHit (st : PState) (url : String) : Bool :=
  st.processedUrls.contains url && (alookup st.urlDocs url).isSome

/-- The redirect short-circuit guard of process_url (line 1143). -/
def redirectShortCircuit (st : PState) (url : String) : Bool :=
  match alookup st.redirectedUrls url with
  | some v => st.processedUrls.contains v
  | none => false

def filterType (docs : List PDoc) (t : String) : List PDoc :=
  docs.filter (fun d => d.metadata.chunkType == some t)

/-- The base metadata of the character chunks in process_url (line 1158). -/
def charBaseMeta (url title : String) (depth : Nat) (language : String) : ChunkMeta :=
  { source := url, title := title, depth := depth, language := language }

/-- The metadata of the one whole-page full-text document (line 1164). -/
def fullTextMeta (url title : String) (depth : Nat) (language : String) : ChunkMeta :=
  { source := url, title := title, depth := depth, language := language,
    chunkType := some "full_text" }

/-- process_url (lines 1136-1174): cache hit splits the cached documents by
chunk_type; a known redirect to a processed target marks the URL processed
and emits nothing; otherwise fetch (fetch_with_retry returns the first
normal result of fetch_url_async, and the modelled fetch never raises),
re-check login/not-found, record page character count, emit the character
chunks, the structural chunks and the single whole-page full-text document
(whose md5 goes to processed_hashes), then cache and mark processed when
anything was emitted. -/
def processUrl (cfg : Config) (env : Env) (st : PState) (url : String) (depth : Nat) :
    (List PDoc × List PDoc × List PDoc) × PState :=
  if cacheHit st url then
    let cached := (alookup st.urlDocs url).getD []
    ((filterType cached "character", filterType cached "structural",
      filterType cached "full_text"), st)
  else if redirectShortCircuit st url then
    (([], [], []), addToProcessedUrls st url)
  else
    let r := fetchUrlAsync env st url
    match r with
    | (none, st1) =>
      (([], [], []), addToProcessedUrls (recordError st1 url "Failed to fetch or invalid page") url)
    | (some pv, st1) =>
      if pv.isLogin || pv.isNotFound then
        (([], [], []), addToProcessedUrls (recordError st1 url "Failed to fetch or invalid page") url)
      else
        let content := pv.extracted
        let st2 := trackPageCharacterCount st1 url content pv.title pv.language depth
        let cc :=
          if minChunkChars ≤ content.length then
            createChunks cfg st2 content (charBaseMeta url pv.title depth pv.language) "character"
          else ([], st2)
        let charDocs := cc.1
        let sc := env.structChunks cc.2 url depth pv.language
        let structDocs := sc.1
        let fc :=
          if minChunkChars ≤ content.length then
            ([{ pageContent := content,
                metadata := fullTextMeta url pv.title depth pv.language }],
             addToProcessedHashes sc.2 (cfg.md5 content))
          else (([] : List PDoc), sc.2)
        let fullDocs := fc.1
        let allDocs := charDocs ++ structDocs ++ fullDocs
        let stFinal :=
          if allDocs.isEmpty then fc.2
          else { addToProcessedUrls fc.2 url with urlDocs := ainsert fc.2.urlDocs url allDocs }
        ((charDocs, structDocs, fullDocs), stFinal)

/-- The per-batch result accounting of process_urls_from_mapping (lines
1276-1293), sequentialised: after each URL, when it produced chunks, add it
(and its redirect target, if any) to processed_urls, and append its chunks
to the three streams. -/
def processPlanned (cfg : Config) (env : Env) :
    List (String × Nat) → PState → List PDoc × List PDoc × List PDoc →
    (List PDoc × List PDoc × List PDoc) × PState
  | [], st, acc => (acc, st)
  | (url, depth) :: rest, st, acc =>
    let r := processUrl cfg env st url depth
    let c := r.1.1
    let s := r.1.2.1
    let f := r.1.2.2
    let st1 := r.2
    let st2 :=
      if 0 < c.length + s.length + f.length then
        let stA := { st1 with processedUrls := insertNew st1.processedUrls url }
        match alookup stA.redirectedUrls url with
        | some v => { stA with processedUrls := insertNew stA.processedUrls v }
        | none => stA
      else st1
    processPlanned cfg env rest st2 (acc.1 ++ c, acc.2.1 ++ s, acc.2.2 ++ f)

/-- process_urls_from_mapping (lines 1232-1305): plan the URLs from the map
(skipped extensions never enter the work list), then process them. -/
def processUrlsFromMapping (cfg : Config) (env : Env) (m : UrlMap) (maxDepth : Nat)
    (limit : Option Nat) (st : PState) : (List PDoc × List PDoc × List PDoc) × PState :=
  let planned := (planUrls m maxDepth limit).1
  processPlanned cfg env planned st ([], [], [])

/- ## Concrete fixtures used by the closed theorems below -/

/-- Concrete configuration: default chunk sizes; md5 instantiated by the
identity fingerprint (an injective stand-in whose dedup behaviour agrees
with MD5 in the absence of collisions); clean_content instantiated by its
markup-free restriction, which is exact for the plain texts these runs
produce. -/
def exCfg : Config := { md5 := fun s => s, cleanFn := cleanContentNoMarkup }

def emptyState : PState := {}

def url1 : String := "https://example.desy.de/page.html"

/-- A 40-character extracted body. -/
def content40 : String := "This particle physics update has results"

/-- A 520-character response body (passes the 500-character screen). -/
def htmlA : String := String.mk (List.replicate 520 'a')

/-- Parse oracle result for htmlA: an ordinary content page. -/
def pvA : PageView :=
  { title := "Example page title for tests", isLogin := false, isNotFound := false,
    textLen := 400, structCount := 8, extJsCount := 0, hasNoscript := false,
    extracted := content40, language := "en" }

/-- Parse oracle result for anything unexpected. -/
def defaultPV : PageView :=
  { title := "", isLogin := false, isNotFound := true, textLen := 0, structCount := 0,
    extJsCount := 0, hasNoscript := false, extracted := "", language := "en" }

/-- A structural-chunker oracle that finds no sections. -/
def noStruct : PState → String → Nat → String → List PDoc × PState :=
  fun st _ _ _ => ([], st)

/-- Environment A: every GET completes at once with 200, no redirect, body
htmlA; the browser is never needed. -/
def exEnvA : Env :=
  { att := fun _ _ => .resp 200 url1 htmlA,
    js := fun _ _ => .exn "no browser",
    parse := fun s => if s == htmlA then pvA else defaultPV,
    structChunks := noStruct }

/- ## Supporting lemmas about the state helpers -/

theorem contains_insertNew_self (l : List String) (x : String) :
    (insertNew l x).contains x = true := by
  unfold insertNew
  split
  · assumption
  · simp

theorem contains_insertNew_of (l : List String) (x y : String) (h : l.contains y = true) :
    (insertNew l x).contains y = true := by
  unfold insertNew
  split
  · exact h
  · simp_all

theorem alookup_ainsert_self {β : Type} (l : AList β) (k : String) (v : β) :
    alookup (ainsert l k v) k = some v := by
  induction l with
  | nil => simp [ainsert, alookup]
  | cons p rest ih =>
    by_cases h : p.1 == k
    · simp [ainsert, alookup, h]
    · simp [ainsert, alookup, h, ih]

theorem contains_addToProcessedUrls_self (st : PState) (u : String) :
    (addToProcessedUrls st u).processedUrls.contains u = true := by
  unfold addToProcessedUrls
  exact contains_insertNew_self _ _

theorem processedUrls_addToProcessedUrls_small (st : PState) (u : String)
    (h : st.processedUrls.length < maxUrls) :
    (addToProcessedUrls st u).processedUrls = insertNew st.processedUrls u := by
  unfold addToProcessedUrls
  simp [Nat.not_le_of_lt h]

theorem addToProcessedUrls_errorUrls (st : PState) (u : String) :
    (addToProcessedUrls st u).errorUrls = st.errorUrls := rfl

theorem addToProcessedUrls_redirectedUrls (st : PState) (u : String) :
    (addToProcessedUrls st u).redirectedUrls = st.redirectedUrls := rfl

theorem addToProcessedUrls_fullTextHashes (st : PState) (u : String) :
    (addToProcessedUrls st u).fullTextHashes = st.fullTextHashes := rfl

theorem addToProcessedHashes_fullTextHashes (st : PState) (h : String) :
    (addToProcessedHashes st h).fullTextHashes = st.fullTextHashes := rfl

theorem contains_addToProcessedHashes_self (st : PState) (h : String) :
    (addToProcessedHashes st h).processedHashes.contains h = true := by
  unfold addToProcessedHashes
  exact contains_insertNew_self _ _

theorem recordError_fullTextHashes (st : PState) (u msg : String) :
    (recordError st u msg).fullTextHashes = st.fullTextHashes := rfl

theorem recordRedirect_fullTextHashes (st : PState) (u v : String) :
    (recordRedirect st u v).fullTextHashes = st.fullTextHashes := rfl

theorem trackPageCharacterCount_fullTextHashes (st : PState)
    (url content title language : String) (depth : Nat) :
    (trackPageCharacterCount st url content title language depth).fullTextHashes =
      st.fullTextHashes := by
  unfold trackPageCharacterCount
  split <;> rfl

theorem createChunksGo_fullTextHashes (cfg : Config) (m : ChunkMeta)
    (ct sT : String) (sL total : Nat) :
    ∀ (list : List (Nat × List Char)) (fps : List String) (st : PState) (acc : List PDoc),
      ((createChunksGo cfg m ct sT sL total list fps st acc).2).fullTextHashes =
        st.fullTextHashes := by
  intro list
  induction list with
  | nil => intro fps st acc; rfl
  | cons p rest ih =>
    intro fps st acc
    obtain ⟨i, chunk⟩ := p
    unfold createChunksGo
    dsimp only
    repeat' split
    all_goals exact ih _ _ _

theorem createChunks_fullTextHashes (cfg : Config) (st : PState) (text : String)
    (m : ChunkMeta) (ct : String) :
    ((createChunks cfg st text m ct).2).fullTextHashes = st.fullTextHashes := by
  unfold createChunks
  dsimp only
  repeat' split
  all_goals first
    | rfl
    | exact createChunksGo_fullTextHashes cfg m ct _ _ _ _ _ _ _

theorem fetchWithJsLoop_fullTextHashes (env : Env) (url : String) :
    ∀ (left attempt : Nat) (st : PState),
      ((fetchWithJsLoop env url left attempt st).2).fullTextHashes = st.fullTextHashes := by
  intro left
  induction left with
  | zero => intro attempt st; rfl
  | succ n ih =>
    intro attempt st
    unfold fetchWithJsLoop
    dsimp only
    repeat' split
    all_goals first
      | rfl
      | exact ih _ _

theorem fetchSimpleLoop_fullTextHashes (env : Env) (url : String) :
    ∀ (left attempt : Nat) (st : PState),
      ((fetchSimpleLoop env url left attempt st).2).fullTextHashes = st.fullTextHashes := by
  intro left
  induction left with
  | zero => intro attempt st; rfl
  | succ n ih =>
    intro attempt st
    unfold fetchSimpleLoop
    dsimp only
    repeat' split
    all_goals first
      | rfl
      | exact ih _ _
      | exact fetchWithJsLoop_fullTextHashes env url 3 0 _

theorem fetchUrlAsync_fullTextHashes (env : Env) (st : PState) (url : String) :
    ((fetchUrlAsync env st url).2).fullTextHashes = st.fullTextHashes := by
  have hS : ∀ (st' : PState) (o : Option String) (s1 : PState),
      fetchSimple env st' url = (o, s1) → s1.fullTextHashes = st'.fullTextHashes := by
    intro st' o s1 h
    have h0 := fetchSimpleLoop_fullTextHashes env url 3 0 st'
    rw [show fetchSimpleLoop env url 3 0 st' = fetchSimple env st' url from rfl, h] at h0
    exact h0
  have hJ : ∀ (st' : PState) (o : Option String) (s1 : PState),
      fetchWithJs env st' url = (o, s1) → s1.fullTextHashes = st'.fullTextHashes := by
    intro st' o s1 h
    have h0 := fetchWithJsLoop_fullTextHashes env url 3 0 st'
    rw [show fetchWithJsLoop env url 3 0 st' = fetchWithJs env st' url from rfl, h] at h0
    exact h0
  unfold fetchUrlAsync
  dsimp only
  split
  · rfl
  · rcases hfs : fetchSimple env st url with ⟨o, st1⟩
    have e1 : st1.fullTextHashes = st.fullTextHashes := hS st o st1 hfs
    rcases o with _ | content
    · dsimp only
      rcases hjs : fetchWithJs env st1 url with ⟨o2, st2⟩
      have e2 : st2.fullTextHashes = st1.fullTextHashes := hJ st1 o2 st2 hjs
      rcases o2 with _ | jsContent
      · dsimp only
        rw [e2, e1]
      · dsimp only
        repeat' split
        all_goals simp [recordError_fullTextHashes, e2, e1]
    · dsimp only
      split
      · simp [recordError_fullTextHashes, e1]
      · split
        · simp [recordError_fullTextHashes, e1]
        · split
          · rcases hjs : fetchWithJs env st1 url with ⟨o2, st2⟩
            have e2 : st2.fullTextHashes = st1.fullTextHashes := hJ st1 o2 st2 hjs
            rcases o2 with _ | jsContent
            · dsimp only
              rw [e2, e1]
            · dsimp only
              repeat' split
              all_goals simp [recordError_fullTextHashes, e2, e1]
          · simpa using e1

/- ## Claim C2: main-content selector order -/

/-- A document on which the selector main matches node 1, no other
main-content selector matches, and the body element is node 2. -/
def exSoupMain : SoupSelect :=
  { selectOne := fun sel => if sel == "main" then some 1 else none,
    body := some 2 }

/-- C2: the HTML cleaner is claimed to use the first main-content selector
that matches, falling through to body only when none matches.  The selector
loop as coded overwrites its result with select_one of every selector in
turn, so only the final selector (center) can ever be kept: on a document
whose main element matches and which has no center, the code falls through
to the body node instead of using the main node, diverging from the
stated first-match rule. -/
theorem c2_selector_loop (d : SoupSelect) :
    chooseMainContent exSoupMain = .node 2 ∧
    chooseMainContentFirstMatch exSoupMain = .node 1 ∧
    chooseMainContent d = (match d.selectOne "center" with
      | some n => .node n
      | none => match d.body with
        | some b => MainPick.node b
        | none => MainPick.root) := by
  refine ⟨by decide, by decide, ?_⟩
  rfl

/- ## Claim C9: the cleaner is not idempotent -/

/-- C9 counterexample: clean_content is claimed idempotent, but on the
markup-free input Back to Back to Top Top the first pass removes the inner
Back to Top occurrence and the whitespace collapse reassembles a fresh
Back to Top, which a second pass removes entirely, so cleaning twice
differs from cleaning once. -/
theorem c9_counterexample :
    cleanContentNoMarkup (cleanContentNoMarkup "Back to Back to Top Top") ≠
      cleanContentNoMarkup "Back to Back to Top Top" := by decide

/-- C9 (amended): cleaning is not idempotent; deletions of the TEXT_CLEANUP
patterns followed by the whitespace collapse can create new matches for an
earlier pattern, which only the next pass removes: the first pass maps the
input to Back to Top and the second pass maps that to the empty string. -/
theorem c9_cleaner_not_idempotent :
    cleanContentNoMarkup "Back to Back to Top Top" = "Back to Top" ∧
    cleanContentNoMarkup "Back to Top" = "" := by decide

/- ## Claim C10: non-200 responses do not consume retries -/

/-- C10: if the GET of fetch_simple completes with a non-200 status, the
error HTTP status: N is recorded and None is returned on that same attempt
(one single GET is issued when the first attempt completes, two when the
first raised and the second completed); the later attempts of the
environment are unconstrained, so a completed non-200 response never
consumes them. -/
theorem c10_non200_same_attempt (env : Env) (st : PState) (url : String) :
    (∀ (status : Nat) (finalUrl body : String),
       env.att url 0 = .resp status finalUrl body → status ≠ 200 →
       fetchSimple env st url =
         (none, recordError { st with fetchCount := st.fetchCount + 1 } url
           ("HTTP status: " ++ toString status))) ∧
    (∀ (e : String) (status : Nat) (finalUrl body : String),
       env.att url 0 = .exn e → env.att url 1 = .resp status finalUrl body →
       status ≠ 200 →
       fetchSimple env st url =
         (none, recordError { st with fetchCount := st.fetchCount + 2 } url
           ("HTTP status: " ++ toString status))) := by
  constructor
  · intro status finalUrl body h hne
    unfold fetchSimple fetchSimpleLoop
    simp [h, hne]
  · intro e status finalUrl body h0 h1 hne
    unfold fetchSimple fetchSimpleLoop
    simp only [h0]
    norm_num
    unfold fetchSimpleLoop
    simp [h1, hne]

/-- An environment whose first GET attempt completes with HTTP 404. -/
def env404 : Env :=
  { att := fun _ n => if n == 0 then .resp 404 url1 "" else .exn "later attempt",
    js := fun _ _ => .exn "no browser",
    parse := fun _ => defaultPV,
    structChunks := noStruct }

/-- Witness for C10 at a concrete 404 response. -/
theorem c10_witness :
    env404.att url1 0 = .resp 404 url1 "" ∧ (404 : Nat) ≠ 200 ∧
    fetchSimple env404 emptyState url1 =
      (none, recordError { emptyState with fetchCount := emptyState.fetchCount + 1 } url1
        ("HTTP status: " ++ toString (404 : Nat))) :=
  ⟨rfl, by decide,
    (c10_non200_same_attempt env404 emptyState url1).1 404 url1 "" rfl (by decide)⟩

/- ## Claim C5: redirects to already-processed targets -/

/-- C5: when the GET for u completes (200, body passing the soft-block
screen) at a final URL v different from u, fetch_simple records
redirected_urls[u] = v; and when v is already in processed_urls, u is added
to processed_urls and processing of u emits zero chunks.  The hypotheses pin
the environment to that scenario (the browser fallback also navigates u to
v, as the same server would); the capacity hypothesis rules out the halving
eviction of processed_urls between the two membership tests. -/
theorem c5_redirect_to_processed (cfg : Config) (env : Env) (st : PState)
    (u v body jsHtml : String) (jsTextLen jsTagCount depth : Nat)
    (hskip : shouldSkipUrl u = false)
    (hcontu : st.processedUrls.contains u = false)
    (hredir : alookup st.redirectedUrls u = none)
    (hcap : st.processedUrls.length < maxUrls)
    (hresp : env.att u 0 = .resp 200 v body)
    (hsoft : softBlockBody body = false)
    (hne : v ≠ u)
    (hv : st.processedUrls.contains v = true)
    (hjs : env.js u 0 = .nav v jsHtml jsTextLen jsTagCount) :
    (processUrl cfg env st u depth).1 = ([], [], []) ∧
    alookup ((processUrl cfg env st u depth).2).redirectedUrls u = some v ∧
    ((processUrl cfg env st u depth).2).processedUrls.contains u = true := by
  have hbne : (v != u) = true := by simp [bne_iff_ne, hne]
  have hvMem : v ∈ st.processedUrls := List.mem_of_elem_eq_true hv
  have hfs : fetchSimple env st u =
      (none, addToProcessedUrls
        (recordRedirect { st with fetchCount := st.fetchCount + 1 } u v) u) := by
    unfold fetchSimple fetchSimpleLoop
    simp [hresp, hsoft, hbne, hvMem, recordRedirect]
  set s1 := addToProcessedUrls
    (recordRedirect { st with fetchCount := st.fetchCount + 1 } u v) u with hs1
  have hs1p : s1.processedUrls = insertNew st.processedUrls u := by
    rw [hs1, processedUrls_addToProcessedUrls_small]
    · rfl
    · exact hcap
  have hjsv : s1.processedUrls.contains v = true := by
    rw [hs1p]
    exact contains_insertNew_of _ _ _ hv
  have hjsvMem : v ∈ s1.processedUrls := List.mem_of_elem_eq_true hjsv
  have hfj : fetchWithJs env s1 u =
      (none, addToProcessedUrls
        (recordRedirect { s1 with fetchCount := s1.fetchCount + 1 } u v) u) := by
    unfold fetchWithJs fetchWithJsLoop
    simp [hjs, hbne, recordRedirect, hjsvMem]
  have hfu : fetchUrlAsync env st u =
      (none, addToProcessedUrls
        (recordRedirect { s1 with fetchCount := s1.fetchCount + 1 } u v) u) := by
    unfold fetchUrlAsync
    simp [hskip, hfs, hfj]
  have hcuMem : u ∉ st.processedUrls := by simpa using hcontu
  have hch : cacheHit st u = false := by simp [cacheHit, hcuMem]
  have hrs : redirectShortCircuit st u = false := by
    simp [redirectShortCircuit, hredir]
  unfold processUrl
  rw [hch, hrs]
  simp only [Bool.false_eq_true, if_false, hfu]
  refine ⟨trivial, ?_, ?_⟩
  · exact alookup_ainsert_self s1.redirectedUrls u v
  · exact contains_addToProcessedUrls_self _ u

def urlStart : String := "https://example.desy.de/start.html"
def urlFinal : String := "https://example.desy.de/final.html"

/-- Environment in which fetching urlStart resolves to urlFinal (both over
HTTP and in the browser). -/
def envRedirect : Env :=
  { att := fun _ n => if n == 0 then .resp 200 urlFinal htmlA else .exn "later attempt",
    js := fun _ _ => .nav urlFinal "rendered" 0 0,
    parse := fun _ => defaultPV,
    structChunks := noStruct }

/-- A state in which urlFinal was already processed. -/
def stateV : PState := { processedUrls := [urlFinal] }

/-- Witness for C5: a concrete redirect onto an already-processed URL. -/
theorem c5_witness :
    stateV.processedUrls.contains urlFinal = true ∧ urlFinal ≠ urlStart ∧
    (processUrl exCfg envRedirect stateV urlStart 0).1 = ([], [], []) ∧
    alookup ((processUrl exCfg envRedirect stateV urlStart 0).2).redirectedUrls urlStart
      = some urlFinal ∧
    ((processUrl exCfg envRedirect stateV urlStart 0).2).processedUrls.contains urlStart
      = true := by
  have h := c5_redirect_to_processed exCfg envRedirect stateV urlStart urlFinal htmlA
    "rendered" 0 0 0 (by decide) (by decide) (by decide) (by decide) rfl (by decide)
    (by decide) (by decide) rfl
  exact ⟨by decide, by decide, h.1, h.2.1, h.2.2⟩

/- ## Claim C4: error entries versus produced chunks -/

def url4 : String := "https://example.desy.de/blocked.html"
def html4 : String := String.mk (List.replicate 60 'c')

/-- Parse oracle result for html4: an ordinary content page. -/
def pv4 : PageView :=
  { title := "Recovered page", isLogin := false, isNotFound := false,
    textLen := 400, structCount := 9, extJsCount := 0, hasNoscript := false,
    extracted := content40, language := "en" }

/-- Environment B: the plain fetch completes 200 but with the one-character
body x (a soft block), and the browser then renders a good page. -/
def exEnvB : Env :=
  { att := fun _ _ => .resp 200 url4 "x",
    js := fun _ _ => .nav url4 html4 300 8,
    parse := fun s => if s == html4 then pv4 else defaultPV,
    structChunks := noStruct }

/-- C4 counterexample: fetch_simple records the error Soft block or empty
content for url4 and then succeeds through the JS renderer, after which
process_url emits chunks; the error entry is never cleared, so url4 both
carries an error entry and produced chunks, contradicting the claimed
disjointness. -/
theorem c4_counterexample :
    alookup ((processUrl exCfg exEnvB emptyState url4 0).2).errorUrls url4 =
      some "Soft block or empty content" ∧
    (processUrl exCfg exEnvB emptyState url4 0).1.1 ≠ [] := by decide

/-- C4 (amended): a URL whose fetch fails outright (no page, or a
login/not-found page) carries the error entry Failed to fetch or invalid
page and yields zero chunks; but the full disjointness fails, because error
entries written by intermediate failed stages (such as a soft block before
a successful JS render) are never removed when a later stage succeeds. -/
theorem c4_failed_fetch_error_and_no_chunks (cfg : Config) (env : Env) (st : PState)
    (url : String) (depth : Nat)
    (h1 : cacheHit st url = false)
    (h2 : redirectShortCircuit st url = false)
    (hF : (fetchUrlAsync env st url).1 = none) :
    (processUrl cfg env st url depth).1 = ([], [], []) ∧
    alookup ((processUrl cfg env st url depth).2).errorUrls url =
      some "Failed to fetch or invalid page" := by
  unfold processUrl
  rw [h1, h2]
  simp only [Bool.false_eq_true, if_false]
  rcases hfu : fetchUrlAsync env st url with ⟨o, st1⟩
  rw [hfu] at hF
  cases o with
  | none =>
    dsimp only
    exact ⟨rfl, alookup_ainsert_self st1.errorUrls url _⟩
  | some pv => simp at hF

/-- An environment in which both the HTTP client and the browser raise on
every attempt. -/
def envDown : Env :=
  { att := fun _ _ => .exn "connection reset",
    js := fun _ _ => .exn "browser offline",
    parse := fun _ => defaultPV,
    structChunks := noStruct }

/-- Witness for C4 (amended) at a concrete failing environment. -/
theorem c4_witness :
    cacheHit emptyState url1 = false ∧
    redirectShortCircuit emptyState url1 = false ∧
    (fetchUrlAsync envDown emptyState url1).1 = none ∧
    (processUrl exCfg envDown emptyState url1 0).1 = ([], [], []) ∧
    alookup ((processUrl exCfg envDown emptyState url1 0).2).errorUrls url1 =
      some "Failed to fetch or invalid page" := by
  have h := c4_failed_fetch_error_and_no_chunks exCfg envDown emptyState url1 0
    (by decide) (by decide) (by decide)
  exact ⟨by decide, by decide, by decide, h.1, h.2⟩

/- ## Claim C1: the full-text document and its hash pool -/

theorem isEmpty_appendPair_singleton {α : Type} (xs ys : List α) (a : α) :
    ((xs ++ ys) ++ [a]).isEmpty = false := by
  cases xs <;> cases ys <;> rfl

/-- C1 counterexample: on a URL whose cleaned body has 40 characters, the
pipeline emits the one full-text document, but the MD5 of the body lands in
processed_hashes (the character-chunk pool) and full_text_hashes stays
empty, contradicting the claimed separate pool. -/
theorem c1_counterexample :
    (processUrl exCfg exEnvA emptyState url1 0).1.2.2 =
      [{ pageContent := content40,
         metadata := fullTextMeta url1 "Example page title for tests" 0 "en" }] ∧
    ((processUrl exCfg exEnvA emptyState url1 0).2).fullTextHashes = [] ∧
    ((processUrl exCfg exEnvA emptyState url1 0).2).processedHashes.contains content40
      = true := by decide

/-- C1 (amended): on the fetch path with a cleaned body of at least
MIN_CHUNK_CHARS, process_url emits exactly one full-text document whose
content equals the cleaned body at emission time; however the MD5 of that
body is added to processed_hashes (the character-chunk pool) and
full_text_hashes is left unchanged (the hypothesis on the structural
chunker holds of create_structure_based_chunks, which only ever writes
processed_hashes), so full-text output is not fenced off from
character-chunk dedup. -/
theorem c1_full_text_document_and_pool (cfg : Config) (env : Env) (st : PState)
    (url : String) (depth : Nat) (pv : PageView) (st1 : PState)
    (h1 : cacheHit st url = false)
    (h2 : redirectShortCircuit st url = false)
    (hF : fetchUrlAsync env st url = (some pv, st1))
    (hOk : (pv.isLogin || pv.isNotFound) = false)
    (hLen : minChunkChars ≤ pv.extracted.length)
    (hStruct : ∀ (st' : PState) (u : String) (d : Nat) (l : String),
       ((env.structChunks st' u d l).2).fullTextHashes = st'.fullTextHashes) :
    (processUrl cfg env st url depth).1.2.2 =
      [{ pageContent := pv.extracted,
         metadata := fullTextMeta url pv.title depth pv.language }] ∧
    ((processUrl cfg env st url depth).2).fullTextHashes = st.fullTextHashes ∧
    ((processUrl cfg env st url depth).2).processedHashes.contains (cfg.md5 pv.extracted)
      = true := by
  have e4 : st1.fullTextHashes = st.fullTextHashes := by
    have h0 := fetchUrlAsync_fullTextHashes env st url
    rw [hF] at h0
    exact h0
  unfold processUrl
  rw [h1, h2]
  simp only [Bool.false_eq_true, if_false]
  rw [hF]
  simp only [hOk, Bool.false_eq_true, if_false]
  rw [if_pos hLen, if_pos hLen]
  simp only [isEmpty_appendPair_singleton, Bool.false_eq_true, if_false]
  refine ⟨trivial, ?_, ?_⟩
  · show (addToProcessedHashes
        (env.structChunks
          (createChunks cfg
            (trackPageCharacterCount st1 url pv.extracted pv.title pv.language depth)
            pv.extracted (charBaseMeta url pv.title depth pv.language) "character").2
          url depth pv.language).2
        (cfg.md5 pv.extracted)).fullTextHashes = st.fullTextHashes
    rw [addToProcessedHashes_fullTextHashes, hStruct, createChunks_fullTextHashes,
      trackPageCharacterCount_fullTextHashes, e4]
  · exact contains_addToProcessedHashes_self _ _

/-- Witness for C1 (amended) at the concrete environment A. -/
theorem c1_witness :
    minChunkChars ≤ content40.length ∧
    (processUrl exCfg exEnvA emptyState url1 0).1.2.2 =
      [{ pageContent := pvA.extracted,
         metadata := fullTextMeta url1 pvA.title 0 pvA.language }] ∧
    ((processUrl exCfg exEnvA emptyState url1 0).2).fullTextHashes =
      emptyState.fullTextHashes ∧
    ((processUrl exCfg exEnvA emptyState url1 0).2).processedHashes.contains
      (exCfg.md5 pvA.extracted) = true := by
  have h := c1_full_text_document_and_pool exCfg exEnvA emptyState url1 0 pvA
    ({ emptyState with fetchCount := 1 }) (by decide) (by decide) (by decide)
    (by decide) (by decide) (fun st' u d l => rfl)
  exact ⟨by decide, h.1, h.2.1, h.2.2⟩

/- ## Claim C3: chunk length lower bounds -/

theorem splitLoop_length (t : List Char) (maxSize overlap minChars minChunkSize : Nat) :
    ∀ (fuel start : Nat) (acc : List (List Char)),
      (∀ c ∈ acc, minChars ≤ c.length) →
      ∀ c ∈ splitLoop t maxSize overlap minChars minChunkSize fuel start acc,
        minChars ≤ c.length := by
  intro fuel
  induction fuel with
  | zero => intro start acc hacc c hc; exact hacc c hc
  | succ n ih =>
    intro start acc hacc c hc
    unfold splitLoop at hc
    dsimp only at hc
    split at hc
    · have hacc2 : ∀ c' ∈ (if minChars ≤
          (pyStripL (sliceL t start (chooseEnd t maxSize minChunkSize start
            (min (start + maxSize) t.length)))).length then
          acc ++ [pyStripL (sliceL t start (chooseEnd t maxSize minChunkSize start
            (min (start + maxSize) t.length)))] else acc),
          minChars ≤ c'.length := by
        intro c' hc'
        split at hc'
        · rcases List.mem_append.mp hc' with h | h
          · exact hacc c' h
          · rw [List.mem_singleton.mp h]
            assumption
        · exact hacc c' hc'
      split at hc
      · exact hacc2 c hc
      · exact ih _ _ hacc2 c hc
    · exact hacc c hc

/-- Every chunk of split_text_by_size has at least min_chars characters
provided the input itself does (the single-chunk fast path returns the
input unfiltered; the loop filters). -/
theorem splitTextBySize_length (t : List Char) (maxSize overlap minChars : Nat)
    (h : minChars ≤ t.length) :
    ∀ c ∈ splitTextBySize t maxSize overlap minChars, minChars ≤ c.length := by
  unfold splitTextBySize
  split
  · intro c hc
    rw [List.mem_singleton.mp hc]
    exact h
  · exact splitLoop_length t maxSize overlap minChars _ _ _ []
      (by intro c hc; cases hc)

theorem createChunksGo_length (cfg : Config) (m : ChunkMeta) (ct sT : String)
    (sL total : Nat) (list : List (Nat × List Char)) :
    ∀ (fps : List String) (st : PState) (acc : List PDoc),
      (∀ d ∈ acc, minChunkChars ≤ d.pageContent.length) →
      (∀ p ∈ list, minChunkChars ≤ p.2.length) →
      ∀ d ∈ (createChunksGo cfg m ct sT sL total list fps st acc).1,
        minChunkChars ≤ d.pageContent.length := by
  induction list with
  | nil => intro fps st acc hacc _ d hd; exact hacc d hd
  | cons p rest ih =>
    intro fps st acc hacc hlist
    obtain ⟨i, chunk⟩ := p
    have hrest : ∀ q ∈ rest, minChunkChars ≤ q.2.length :=
      fun q hq => hlist q (List.mem_cons_of_mem _ hq)
    unfold createChunksGo
    dsimp only
    split
    · exact ih _ _ _ hacc hrest
    · split
      · exact ih _ _ _ hacc hrest
      · apply ih _ _ _ ?_ hrest
        intro d hd
        rcases List.mem_append.mp hd with h | h
        · exact hacc d h
        · rw [List.mem_singleton.mp h]
          exact hlist (i, chunk) (List.mem_cons_self _ _)

/-- C3 (amended): every chunk emitted by create_chunks on an input of at
least MIN_CHUNK_CHARS characters has content of at least MIN_CHUNK_CHARS
characters.  This covers the character family (process_url only calls
create_chunks with content of at least 30 characters) and the filtered
structural passes; the claim fails only for the unfiltered whole-body
structural fallback, whose body text may be shorter than 30 characters
(see the counterexample). -/
theorem c3_createChunks_min_length (cfg : Config) (st : PState) (text : String)
    (m : ChunkMeta) (ct : String) (h : minChunkChars ≤ text.length) :
    ∀ d ∈ (createChunks cfg st text m ct).1, minChunkChars ≤ d.pageContent.length := by
  unfold createChunks
  split
  · intro d hd; cases hd
  · dsimp only
    split
    · intro d hd; cases hd
    · apply createChunksGo_length cfg m ct _ _ _ _ _ _ _
      · intro d hd; cases hd
      · intro p hp
        have hmem := (List.of_mem_zip hp).2
        exact splitTextBySize_length text.toList cfg.chunkSize cfg.chunkOverlap
          minChunkChars h p.2 hmem

/-- Witness for C3 (amended) on the 40-character body. -/
theorem c3_witness :
    minChunkChars ≤ content40.length ∧
    ∀ d ∈ (createChunks exCfg emptyState content40 {} "character").1,
      minChunkChars ≤ d.pageContent.length :=
  ⟨by decide,
   c3_createChunks_min_length exCfg emptyState content40 {} "character" (by decide)⟩

def url3 : String := "https://example.desy.de/tiny.html"

/-- The 27-character body text of the tiny page. -/
def exBody : String := "Short example body here xyz"

def exTitle3 : String := "A sufficiently long page title for the tiny example page"

def html3 : String := String.mk (List.replicate 560 'b')

/-- Parse oracle result for html3: a page whose whole visible text is the
long title plus the one short paragraph; extract_content discards the
27-character block (it is below MIN_CHUNK_CHARS), so the extracted cleaned
body is empty. -/
def pv3 : PageView :=
  { title := exTitle3, isLogin := false, isNotFound := false,
    textLen := 210, structCount := 6, extJsCount := 0, hasNoscript := false,
    extracted := "", language := "en" }

/-- Environment C: the tiny page; passes one and two of
create_structure_based_chunks emit nothing (pass one discards the only
27-character section after cleaning, there are no headings), so the
structural chunker is the whole-body fallback applied to the page's body
text and title. -/
def exEnvC : Env :=
  { att := fun _ _ => .resp 200 url3 html3,
    js := fun _ _ => .exn "no browser",
    parse := fun s => if s == html3 then pv3 else defaultPV,
    structChunks := fun st u d l => structuralFallbackChunks exCfg st exBody exTitle3 u d l }

/-- C3 counterexample: processing the tiny page emits exactly one
structural chunk, of 27 characters, below MIN_CHUNK_CHARS = 30: the
whole-body fallback pipes the body text into create_chunks, whose
single-chunk fast path applies no minimum-length filter, and pass three of
create_structure_based_chunks does not filter its results either. -/
theorem c3_counterexample :
    ((processUrl exCfg exEnvC emptyState url3 0).1.2.1).map
        (fun d => d.pageContent.length) = [27] ∧ 27 < minChunkChars := by decide

/- ## Claim C7: chunk metadata fields -/

theorem enumIdx_fst_lt {α : Type} (l : List α) : ∀ p ∈ enumIdx l, p.1 < l.length := by
  intro p hp
  obtain ⟨i, a⟩ := p
  exact List.mem_range.mp (List.of_mem_zip hp).1

theorem createChunksGo_meta (cfg : Config) (m : ChunkMeta) (ct sT : String)
    (sL total : Nat) (list : List (Nat × List Char)) :
    ∀ (fps : List String) (st : PState) (acc : List PDoc),
      (∀ d ∈ acc,
        d.metadata.chunkType = some ct ∧
        ∃ i n, d.metadata.chunkIndex = some i ∧ d.metadata.totalChunks = some n ∧
          (0 < i → d.metadata.continued = some true ∧ 1 < n)) →
      (∀ p ∈ list, p.1 < total) →
      ∀ d ∈ (createChunksGo cfg m ct sT sL total list fps st acc).1,
        d.metadata.chunkType = some ct ∧
        ∃ i n, d.metadata.chunkIndex = some i ∧ d.metadata.totalChunks = some n ∧
          (0 < i → d.metadata.continued = some true ∧ 1 < n) := by
  induction list with
  | nil => intro fps st acc hacc _ d hd; exact hacc d hd
  | cons p rest ih =>
    intro fps st acc hacc hlist
    obtain ⟨i, chunk⟩ := p
    have hrest : ∀ q ∈ rest, q.1 < total :=
      fun q hq => hlist q (List.mem_cons_of_mem _ hq)
    unfold createChunksGo
    dsimp only
    split
    · exact ih _ _ _ hacc hrest
    · split
      · exact ih _ _ _ hacc hrest
      · apply ih _ _ _ ?_ hrest
        intro d hd
        rcases List.mem_append.mp hd with h | h
        · exact hacc d h
        · rw [List.mem_singleton.mp h]
          refine ⟨rfl, i, total, rfl, rfl, ?_⟩
          intro hi
          have hlt : i < total := hlist (i, chunk) (List.mem_cons_self _ _)
          exact ⟨by simp [hi], Nat.lt_of_le_of_lt hi hlt⟩

/-- C7 (amended): every chunk produced by create_chunks (the character and
structural families) carries chunk_type, chunk_index and total_chunks, and
whenever chunk_index is positive, continued is true and total_chunks
exceeds one; but the whole-page full-text documents built inline by
process_url carry only chunk_type (full_text) and none of chunk_index,
total_chunks or continued. -/
theorem c7_chunk_metadata :
    (∀ (cfg : Config) (st : PState) (text : String) (m : ChunkMeta) (ct : String),
      ∀ d ∈ (createChunks cfg st text m ct).1,
        d.metadata.chunkType = some ct ∧
        ∃ i n, d.metadata.chunkIndex = some i ∧ d.metadata.totalChunks = some n ∧
          (0 < i → d.metadata.continued = some true ∧ 1 < n)) ∧
    (∀ (cfg : Config) (env : Env) (st : PState) (url : String) (depth : Nat)
      (pv : PageView) (st1 : PState),
      cacheHit st url = false → redirectShortCircuit st url = false →
      fetchUrlAsync env st url = (some pv, st1) →
      (pv.isLogin || pv.isNotFound) = false →
      ∀ d ∈ (processUrl cfg env st url depth).1.2.2,
        d.metadata.chunkType = some "full_text" ∧ d.metadata.chunkIndex = none ∧
        d.metadata.totalChunks = none ∧ d.metadata.continued = none) := by
  constructor
  · intro cfg st text m ct
    unfold createChunks
    split
    · intro d hd; cases hd
    · dsimp only
      split
      · intro d hd; cases hd
      · apply createChunksGo_meta cfg m ct _ _ _ _ _ _ _
        · intro d hd; cases hd
        · exact enumIdx_fst_lt _
  · intro cfg env st url depth pv st1 h1 h2 hF hOk
    unfold processUrl
    rw [h1, h2]
    simp only [Bool.false_eq_true, if_false]
    rw [hF]
    simp only [hOk, Bool.false_eq_true, if_false]
    by_cases hL : minChunkChars ≤ pv.extracted.length
    · rw [if_pos hL, if_pos hL]
      intro d hd
      dsimp only at hd
      rw [List.mem_singleton.mp hd]
      exact ⟨rfl, rfl, rfl, rfl⟩
    · rw [if_neg hL, if_neg hL]
      intro d hd
      dsimp only at hd
      cases hd

/-- Witness for C7 at the concrete fixtures: the character chunk of the
40-character body, and the full-text document of environment A. -/
theorem c7_witness :
    (∀ d ∈ (createChunks exCfg emptyState content40 {} "character").1,
      d.metadata.chunkType = some "character" ∧
      ∃ i n, d.metadata.chunkIndex = some i ∧ d.metadata.totalChunks = some n ∧
        (0 < i → d.metadata.continued = some true ∧ 1 < n)) ∧
    (∀ d ∈ (processUrl exCfg exEnvA emptyState url1 0).1.2.2,
      d.metadata.chunkType = some "full_text" ∧ d.metadata.chunkIndex = none ∧
      d.metadata.totalChunks = none ∧ d.metadata.continued = none) :=
  ⟨c7_chunk_metadata.1 exCfg emptyState content40 {} "character",
   c7_chunk_metadata.2 exCfg exEnvA emptyState url1 0 pvA
     { emptyState with fetchCount := 1 } (by decide) (by decide) (by decide) (by decide)⟩

/-- C7 counterexample: the pipeline's full-text document carries neither
chunk_index nor total_chunks, so not every emitted chunk's metadata
contains them. -/
theorem c7_counterexample :
    ((processUrl exCfg exEnvA emptyState url1 0).1.2.2).map
        (fun d => (d.metadata.chunkIndex, d.metadata.totalChunks)) = [(none, none)] ∧
    (processUrl exCfg exEnvA emptyState url1 0).1.2.2 ≠ [] := by decide

/- ## Claim C6: skip-by-extension handling -/

theorem classifyLoop_mem (d : Nat) (urls : List String) :
    ∀ (acc : List (String × Nat)) (skipped : List String) (p : String × Nat),
      p ∈ (classifyLoop d urls acc skipped).1 → p ∈ acc ∨ shouldSkipUrl p.1 = false := by
  induction urls with
  | nil => intro acc skipped p hp; exact Or.inl hp
  | cons u rest ih =>
    intro acc skipped p hp
    unfold classifyLoop at hp
    split at hp
    next hsk => exact ih _ _ p hp
    next hsk =>
      rcases ih _ _ p hp with h | h
      · rcases List.mem_append.mp h with h2 | h2
        · exact Or.inl h2
        · rw [List.mem_singleton.mp h2]
          exact Or.inr (by simpa using hsk)
      · exact Or.inr h

theorem planLoop_mem (m : UrlMap) :
    ∀ (ds : List Nat) (acc : List (String × Nat)) (skipped : List String) (p : String × Nat),
      p ∈ (planLoop m ds acc skipped).1 → p ∈ acc ∨ shouldSkipUrl p.1 = false := by
  intro ds
  induction ds with
  | nil => intro acc skipped p hp; exact Or.inl hp
  | cons d rest ih =>
    intro acc skipped p hp
    unfold planLoop at hp
    split at hp
    next urls hu =>
      rcases ih _ _ p hp with h | h
      · exact classifyLoop_mem d urls acc skipped p h
      · exact Or.inr h
    next hu => exact classifyLoop_mem 0 _ acc skipped p hp

theorem uniqueFirst_mem :
    ∀ (l acc : List (String × Nat)) (p : String × Nat),
      p ∈ uniqueFirst l acc → p ∈ acc ∨ p ∈ l := by
  intro l
  induction l with
  | nil => intro acc p hp; exact Or.inl hp
  | cons q rest ih =>
    intro acc p hp
    obtain ⟨u, d⟩ := q
    unfold uniqueFirst at hp
    split at hp
    · rcases ih _ p hp with h | h
      · exact Or.inl h
      · exact Or.inr (List.mem_cons_of_mem _ h)
    · rcases ih _ p hp with h | h
      · rcases List.mem_append.mp h with h2 | h2
        · exact Or.inl h2
        · refine Or.inr ?_
          rw [List.mem_singleton.mp h2]
          exact List.mem_cons_self _ _
      · exact Or.inr (List.mem_cons_of_mem _ h)

/-- C6 (amended): an input URL whose path ends with a non-HTML extension is
never placed on the coordinator's work list, so no fetch is issued for it
and no error_urls entry is created by the coordinator (it is only counted
in a skipped log); the entry Non-HTML content (skipped by extension) is
recorded only when fetch_url_async is invoked on such a URL directly, and
then no fetch is issued either. -/
theorem c6_skip_ext_no_fetch :
    (∀ (m : UrlMap) (maxDepth : Nat) (limit : Option Nat) (u : String) (d : Nat),
      (u, d) ∈ (planUrls m maxDepth limit).1 → shouldSkipUrl u = false) ∧
    (∀ (env : Env) (st : PState) (u : String), shouldSkipUrl u = true →
      fetchUrlAsync env st u =
        (none, recordError st u "Non-HTML content (skipped by extension)")) := by
  constructor
  · intro m maxDepth limit u d hp
    unfold planUrls at hp
    dsimp only at hp
    have hp2 : (u, d) ∈ uniqueFirst (planLoop m (List.range (maxDepth + 1)) [] []).1 [] := by
      split at hp
      · split at hp
        · exact hp
        · exact List.take_subset _ _ hp
      · exact hp
    rcases uniqueFirst_mem _ _ _ hp2 with h | h
    · cases h
    · rcases planLoop_mem m _ _ _ _ h with h2 | h2
      · cases h2
      · exact h2
  · intro env st u hu
    unfold fetchUrlAsync
    simp [hu]

/-- The input URL map of the C6 scenario: one pdf URL at depth 0. -/
def exMap6 : UrlMap := .byDepth [(0, ["https://h/doc.pdf"])]

/-- C6 counterexample: running the coordinator on a map containing only a
pdf URL issues no fetch, and error_urls stays empty: the skip-by-extension
cause is not recorded for input URLs, contradicting the claim. -/
theorem c6_counterexample :
    (planUrls exMap6 0 none).1 = [] ∧
    ((processUrlsFromMapping exCfg exEnvA exMap6 0 none emptyState).2).errorUrls = [] ∧
    ((processUrlsFromMapping exCfg exEnvA exMap6 0 none emptyState).2).fetchCount = 0 := by
  decide

/-- Witness for C6 (amended) on the concrete pdf URL. -/
theorem c6_witness :
    shouldSkipUrl "https://h/doc.pdf" = true ∧
    fetchUrlAsync exEnvA emptyState "https://h/doc.pdf" =
      (none, recordError emptyState "https://h/doc.pdf"
        "Non-HTML content (skipped by extension)") :=
  ⟨by decide, c6_skip_ext_no_fetch.2 exEnvA emptyState _ (by decide)⟩

/- ## Claim C8: cache replay -/

theorem filterType_append (a b : List PDoc) (t : String) :
    filterType (a ++ b) t = filterType a t ++ filterType b t :=
  List.filter_append _ _

theorem filterType_all (a : List PDoc) (t : String)
    (h : ∀ d ∈ a, d.metadata.chunkType = some t) : filterType a t = a := by
  unfold filterType
  apply List.filter_eq_self.mpr
  intro d hd
  simp [h d hd]

theorem filterType_nil (a : List PDoc) (t : String)
    (h : ∀ d ∈ a, d.metadata.chunkType ≠ some t) : filterType a t = [] := by
  unfold filterType
  apply List.filter_eq_nil_iff.mpr
  intro d hd
  simp [h d hd]

/-- Splitting a concatenation of three streams with pairwise distinct
chunk_type values by chunk_type recovers the streams. -/
theorem filterType_three (a b c : List PDoc) (ta tb tc : String)
    (hta : ∀ d ∈ a, d.metadata.chunkType = some ta)
    (htb : ∀ d ∈ b, d.metadata.chunkType = some tb)
    (htc : ∀ d ∈ c, d.metadata.chunkType = some tc)
    (hab : ta ≠ tb) (hac : ta ≠ tc) (hbc : tb ≠ tc) :
    filterType (a ++ b ++ c) ta = a ∧ filterType (a ++ b ++ c) tb = b ∧
    filterType (a ++ b ++ c) tc = c := by
  refine ⟨?_, ?_, ?_⟩ <;> rw [filterType_append, filterType_append]
  · rw [filterType_all a ta hta,
      filterType_nil b ta (by intro d hd; rw [htb d hd]; simp [hab.symm]),
      filterType_nil c ta (by intro d hd; rw [htc d hd]; simp [hac.symm])]
    simp
  · rw [filterType_nil a tb (by intro d hd; rw [hta d hd]; simp [hab]),
      filterType_all b tb htb,
      filterType_nil c tb (by intro d hd; rw [htc d hd]; simp [hbc.symm])]
    simp
  · rw [filterType_nil a tc (by intro d hd; rw [hta d hd]; simp [hac]),
      filterType_nil b tc (by intro d hd; rw [htb d hd]; simp [hbc]),
      filterType_all c tc htc]
    simp

theorem createChunks_chunkType (cfg : Config) (st : PState) (text : String)
    (m : ChunkMeta) (ct : String) :
    ∀ d ∈ (createChunks cfg st text m ct).1, d.metadata.chunkType = some ct := by
  unfold createChunks
  split
  · intro d hd; cases hd
  · dsimp only
    split
    · intro d hd; cases hd
    · intro d hd
      exact (createChunksGo_meta cfg m ct _ _ _ _ _ _ _
        (by intro d hd; cases hd) (enumIdx_fst_lt _) d hd).1

/-- The cache-hit branch of process_url: when the URL is marked processed
and cached with documents of well-typed chunk families, process_url returns
the three families unchanged and does not touch the state. -/
theorem processUrl_cache_hit_eq (cfg : Config) (env2 : Env) (stF : PState) (url : String)
    (depth : Nat) (c s f : List PDoc)
    (hcontains : stF.processedUrls.contains url = true)
    (hlookup : alookup stF.urlDocs url = some (c ++ s ++ f))
    (hc : ∀ d ∈ c, d.metadata.chunkType = some "character")
    (hs : ∀ d ∈ s, d.metadata.chunkType = some "structural")
    (hf : ∀ d ∈ f, d.metadata.chunkType = some "full_text") :
    processUrl cfg env2 stF url depth = ((c, s, f), stF) := by
  have hch : cacheHit stF url = true := by
    unfold cacheHit
    rw [hcontains, hlookup]
    rfl
  unfold processUrl
  rw [if_pos hch, hlookup]
  obtain ⟨e1, e2, e3⟩ := filterType_three c s f "character" "structural" "full_text"
    hc hs hf (by decide) (by decide) (by decide)
  simp only [Option.getD_some]
  rw [e1, e2, e3]

/-- C8: re-processing a URL whose first call emitted at least one chunk
performs no fetch and returns the identical chunk triple with the state
unchanged: the first call cached all emitted documents under the URL and
marked it processed, and the cache-hit branch partitions the cached list by
chunk_type, which recovers exactly the original three lists (the second
environment is arbitrary, so no fetch, parse or chunking oracle is
consulted).  The hypothesis on env.structChunks holds of
create_structure_based_chunks, which only emits through create_chunks with
chunk_type structural. -/
theorem c8_cache_replay (cfg : Config) (env env2 : Env) (st : PState) (url : String)
    (depth : Nat)
    (hStruct : ∀ (st' : PState) (u : String) (d : Nat) (l : String),
      ∀ doc ∈ (env.structChunks st' u d l).1, doc.metadata.chunkType = some "structural")
    (hNonempty : ¬((processUrl cfg env st url depth).1.1 = [] ∧
                   (processUrl cfg env st url depth).1.2.1 = [] ∧
                   (processUrl cfg env st url depth).1.2.2 = [])) :
    processUrl cfg env2 ((processUrl cfg env st url depth).2) url depth =
      ((processUrl cfg env st url depth).1, (processUrl cfg env st url depth).2) := by
  by_cases h1 : cacheHit st url = true
  · have hP : processUrl cfg env st url depth =
        ((filterType ((alookup st.urlDocs url).getD []) "character",
          filterType ((alookup st.urlDocs url).getD []) "structural",
          filterType ((alookup st.urlDocs url).getD []) "full_text"), st) := by
      unfold processUrl
      rw [if_pos h1]
    rw [hP]
    unfold processUrl
    rw [if_pos h1]
  · by_cases h2 : redirectShortCircuit st url = true
    · exfalso
      apply hNonempty
      have hP : processUrl cfg env st url depth =
          (([], [], []), addToProcessedUrls st url) := by
        unfold processUrl
        rw [if_neg h1, if_pos h2]
      rw [hP]
      exact ⟨rfl, rfl, rfl⟩
    · rcases hF : fetchUrlAsync env st url with ⟨o, st1⟩
      cases o with
      | none =>
        exfalso
        apply hNonempty
        have hP : processUrl cfg env st url depth =
            (([], [], []),
             addToProcessedUrls (recordError st1 url "Failed to fetch or invalid page") url) := by
          unfold processUrl
          rw [if_neg h1, if_neg h2, hF]
        rw [hP]
        exact ⟨rfl, rfl, rfl⟩
      | some pv =>
        by_cases hOk : (pv.isLogin || pv.isNotFound) = true
        · exfalso
          apply hNonempty
          have hP : processUrl cfg env st url depth =
              (([], [], []),
               addToProcessedUrls (recordError st1 url "Failed to fetch or invalid page") url) := by
            unfold processUrl
            rw [if_neg h1, if_neg h2, hF]
            dsimp only
            rw [if_pos hOk]
          rw [hP]
          exact ⟨rfl, rfl, rfl⟩
        · have hOkf : (pv.isLogin || pv.isNotFound) = false := by simpa using hOk
          by_cases hL : minChunkChars ≤ pv.extracted.length
          · set st2 := trackPageCharacterCount st1 url pv.extracted pv.title pv.language depth
              with hst2
            set cres := createChunks cfg st2 pv.extracted
              (charBaseMeta url pv.title depth pv.language) "character" with hcres
            set sres := env.structChunks cres.2 url depth pv.language with hsres
            set fDoc : PDoc := { pageContent := pv.extracted, metadata := fullTextMeta url pv.title depth pv.language } with hfDoc
            set fState := addToProcessedHashes sres.2 (cfg.md5 pv.extracted) with hfState
            have hP : processUrl cfg env st url depth =
                ((cres.1, sres.1, [fDoc]),
                 if (cres.1 ++ sres.1 ++ [fDoc]).isEmpty then fState
                 else { addToProcessedUrls fState url with
                          urlDocs := ainsert fState.urlDocs url (cres.1 ++ sres.1 ++ [fDoc]) }) := by
              unfold processUrl
              rw [if_neg h1, if_neg h2, hF]
              simp only [hOkf, Bool.false_eq_true, if_false]
              rw [if_pos hL, if_pos hL]
            have hne : (cres.1 ++ sres.1 ++ [fDoc]).isEmpty = false :=
              isEmpty_appendPair_singleton _ _ _
            simp only [hne, Bool.false_eq_true, if_false] at hP
            rw [hP]
            apply processUrl_cache_hit_eq
            · exact contains_addToProcessedUrls_self _ _
            · exact alookup_ainsert_self _ _ _
            · exact createChunks_chunkType cfg st2 pv.extracted _ "character"
            · intro d hd
              exact hStruct _ _ _ _ d hd
            · intro d hd
              rw [List.mem_singleton.mp hd]
              rfl
          · set st2 := trackPageCharacterCount st1 url pv.extracted pv.title pv.language depth
              with hst2
            set sres := env.structChunks st2 url depth pv.language with hsres
            have hP : processUrl cfg env st url depth =
                ((([] : List PDoc), sres.1, ([] : List PDoc)),
                 if (([] : List PDoc) ++ sres.1 ++ ([] : List PDoc)).isEmpty then sres.2
                 else { addToProcessedUrls sres.2 url with
                          urlDocs := ainsert sres.2.urlDocs url
                            (([] : List PDoc) ++ sres.1 ++ ([] : List PDoc)) }) := by
              unfold processUrl
              rw [if_neg h1, if_neg h2, hF]
              simp only [hOkf, Bool.false_eq_true, if_false]
              rw [if_neg hL, if_neg hL]
            rw [hP] at hNonempty
            have hsne : sres.1 ≠ [] := by
              intro h0
              exact hNonempty ⟨rfl, h0, rfl⟩
            have hie : (([] : List PDoc) ++ sres.1 ++ ([] : List PDoc)).isEmpty = false := by
              cases hl : sres.1 with
              | nil => exact absurd hl hsne
              | cons d rest => simp
            simp only [hie, Bool.false_eq_true, if_false] at hP
            rw [hP]
            apply processUrl_cache_hit_eq
            · exact contains_addToProcessedUrls_self _ _
            · exact alookup_ainsert_self _ _ _
            · intro d hd
              cases hd
            · intro d hd
              exact hStruct _ _ _ _ d hd
            · intro d hd
              cases hd

/-- A second environment with no working network, showing that the replay
consults no oracle. -/
def envReplay : Env :=
  { att := fun _ _ => .exn "network gone",
    js := fun _ _ => .exn "browser gone",
    parse := fun _ => defaultPV,
    structChunks := noStruct }

/-- Witness for C8: the second call on environment A's state, under a dead
environment, returns the first call's chunks and state unchanged. -/
theorem c8_witness :
    processUrl exCfg envReplay ((processUrl exCfg exEnvA emptyState url1 0).2) url1 0 =
      ((processUrl exCfg exEnvA emptyState url1 0).1,
       (processUrl exCfg exEnvA emptyState url1 0).2) :=
  c8_cache_replay exCfg exEnvA envReplay emptyState url1 0
    (by intro st' u d l doc hd; cases hd)
    (by intro h; exact absurd h.1 (by decide))

end DESY
